import Mathlib

set_option linter.unusedVariables false

/-! Verification of the YourAPI Rust SDK client
(src/sdk/wrappers/rust/src/lib.rs): request pipeline, retry/backoff,
error parsing, client construction and cursor pagination. -/

/-- Shallow embedding of a serde_json Value. Numbers are modelled as
integers; no verified property inspects numeric payloads. Objects are
ordered association lists; serde_json maps hold at most one entry per key,
and lookups below take the first match. -/
inductive Json where
  | null
  | bool (b : Bool)
  | num (n : Int)
  | str (s : String)
  | arr (elems : List Json)
  | obj (fields : List (String × Json))

/-- Indexing a Value with a string key, as serde_json does for body[key]:
the stored value when the receiver is an object holding the key, and the
Null value otherwise. -/
def jsonIndex (v : Json) (key : String) : Json :=
  match v with
  | .obj fields =>
    match fields.lookup key with
    | some x => x
    | none => .null
  | _ => .null

/-- Value.as_str: the string for a string value, nothing otherwise. -/
def jsonAsStr (v : Json) : Option String :=
  match v with
  | .str s => some s
  | _ => none

/-- Value.get with a string key: some value only when the receiver is an
object holding the key. -/
def jsonGet (v : Json) (key : String) : Option Json :=
  match v with
  | .obj fields => fields.lookup key
  | _ => none

/-- APIError (lib.rs lines 74-81). -/
structure APIError where
  message : String
  status : Option Nat
  code : Option String
  details : Option Json
  request_id : Option String

/-- Observable content of an HTTP response as consumed by the client:
status code, the x-request-id header after the to_str conversion, the
retry-after header after the to_str and parse::<u64> chain, and the
outcome of decoding the body as JSON (the error side carries the decode
failure text). -/
structure HttpResponse where
  status : Nat
  xRequestId : Option String
  retryAfterSecs : Option Nat
  body : Except String Json

/-- Modulus of u64 arithmetic: 2u64.pow wraps modulo 2^64 in release
builds (and panics in debug builds; the wrapping semantics is modelled). -/
def U64_MOD : Nat := 2 ^ 64

/-- Client::calculate_backoff (lib.rs lines 198-206): a parsed Retry-After
hint is returned verbatim; otherwise 2u64.pow(attempt), which wraps modulo
2^64, capped at 8 seconds. The result is in whole seconds. -/
def calculate_backoff (attempt : Nat) (retry_after : Option Nat) : Nat :=
  match retry_after with
  | some seconds => seconds
  | none => min ((2 ^ attempt) % U64_MOD) 8

/-- Client::parse_error (lib.rs lines 208-245). -/
def parse_error (r : HttpResponse) : APIError :=
  let status := r.status
  let request_id := r.xRequestId
  match r.body with
  | .ok body =>
    { message := (jsonAsStr (jsonIndex body "message")).getD "Request failed"
      status := some status
      code := jsonAsStr (jsonIndex body "code")
      details := jsonGet body "details"
      request_id := (jsonAsStr (jsonIndex body "requestId")).or request_id }
  | .error _ =>
    { message := "Request failed with status " ++ toString status
      status := some status
      code := none
      details := none
      request_id := request_id }

/-- Reference error extraction written from the spec text (section 4.2,
Error body parsing): decode the body as JSON; on success extract message
with the fixed fallback, the optional code and details, and a request id
preferring the body value over the header; on decode failure synthesize
the message from the status and take the request id from the header. -/
def specErrorExtraction (r : HttpResponse) : APIError :=
  match r.body with
  | .ok body =>
    { message :=
        match jsonAsStr (jsonIndex body "message") with
        | some m => m
        | none => "Request failed"
      status := some r.status
      code := jsonAsStr (jsonIndex body "code")
      details := jsonGet body "details"
      request_id :=
        match jsonAsStr (jsonIndex body "requestId") with
        | some i => some i
        | none => r.xRequestId }
  | .error _ =>
    { message := "Request failed with status " ++ toString r.status
      status := some r.status
      code := none
      details := none
      request_id := r.xRequestId }

/-- Client (lib.rs lines 127-132). The reqwest handle is modelled by the
default headers and the per-attempt timeout baked into it at
construction time. -/
structure Client where
  base_url : String
  default_headers : List (String × String)
  timeout_secs : Nat
  max_retries : Nat
  debug : Bool

/-- Outcome of one request.send().await: a transport failure carrying its
display text, or a response. -/
inductive TransportOutcome where
  | failure (e : String)
  | response (r : HttpResponse)

/-- The vec of retryable statuses built in do_request (lib.rs line 302). -/
def retryable_statuses : List Nat := [429, 500, 502, 503, 504]

/-- reqwest StatusCode::is_success: 200 through 299. -/
def is_success (s : Nat) : Bool := 200 ≤ s && s ≤ 299

/-- Aggregate outcome of the retry loop of do_request: the returned value,
the number of transport sends performed, the backoff sleeps in order, and
whether the defensive fall-through after the loop produced the result. -/
structure Attempts where
  result : Except APIError (Option Json)
  sends : Nat
  sleeps : List Nat
  fellThrough : Bool

/-- Body of the loop `for attempt in 0..=max_retries` of Client::do_request
(lib.rs lines 256-343), as structural recursion on the number of loop
iterations remaining; the transport outcome of each attempt is supplied by
an oracle indexed by the attempt number. Exhausting the iteration budget
reproduces the defensive MAX_RETRIES_EXCEEDED fall-through after the
loop (lines 337-343). -/
def do_request_go (c : Client) (oracle : Nat → TransportOutcome) : Nat → Nat → Attempts
  | _, 0 =>
    { result := .error
        { message := "Max retries exceeded"
          status := none
          code := some "MAX_RETRIES_EXCEEDED"
          details := none
          request_id := none }
      sends := 0
      sleeps := []
      fellThrough := true }
  | attempt, remaining + 1 =>
    match oracle attempt with
    | .response r =>
      if is_success r.status then
        if r.status == 204 then
          { result := .ok none, sends := 1, sleeps := [], fellThrough := false }
        else
          match r.body with
          | .ok data =>
            { result := .ok (some data), sends := 1, sleeps := [], fellThrough := false }
          | .error e =>
            { result := .error
                { message := "Failed to parse response: " ++ e
                  status := some r.status
                  code := some "PARSE_ERROR"
                  details := none
                  request_id := none }
              sends := 1
              sleeps := []
              fellThrough := false }
      else if r.status ∈ retryable_statuses ∧ attempt < c.max_retries then
        let rest := do_request_go c oracle (attempt + 1) remaining
        { result := rest.result
          sends := rest.sends + 1
          sleeps := calculate_backoff attempt r.retryAfterSecs :: rest.sleeps
          fellThrough := rest.fellThrough }
      else
        { result := .error (parse_error r), sends := 1, sleeps := [], fellThrough := false }
    | .failure e =>
      if attempt < c.max_retries then
        let rest := do_request_go c oracle (attempt + 1) remaining
        { result := rest.result
          sends := rest.sends + 1
          sleeps := calculate_backoff attempt none :: rest.sleeps
          fellThrough := rest.fellThrough }
      else
        { result := .error
            { message := "Request failed: " ++ e
              status := none
              code := some "REQUEST_ERROR"
              details := none
              request_id := none }
          sends := 1
          sleeps := []
          fellThrough := false }

/-- Trace of one Client::do_request call: its returned value, the URL the
request was built against (lib.rs line 254), and the retry-loop trace. -/
structure RunTrace where
  result : Except APIError (Option Json)
  url : String
  sends : Nat
  sleeps : List Nat
  fellThrough : Bool

/-- Client::do_request (lib.rs lines 247-344). -/
def do_request (c : Client) (path : String) (oracle : Nat → TransportOutcome) : RunTrace :=
  let url := c.base_url ++ path
  let a := do_request_go c oracle 0 (c.max_retries + 1)
  { result := a.result
    url := url
    sends := a.sends
    sleeps := a.sleeps
    fellThrough := a.fellThrough }

/-- Concrete client used to instantiate theorems: max_retries 3, the
other fields at their defaults. -/
def wClient : Client :=
  { base_url := ""
    default_headers := []
    timeout_secs := 15
    max_retries := 3
    debug := false }

/-- A 500 response with no Retry-After hint and an undecodable body. -/
def wResp500 : HttpResponse :=
  { status := 500, xRequestId := none, retryAfterSecs := none, body := .error "boom" }

/-- Transport oracle that always returns the 500 response. -/
def wOracle : Nat → TransportOutcome := fun _ => .response wResp500

/-- Validity of one char of an HTTP header value under the http crate
check used by HeaderValue::from_str, which accepts a byte b when
(32 <= b and b /= 127) or b = 9; every byte of a multi-byte UTF-8 char
lies in that range, so the byte check lifts to chars as below. -/
def valid_header_value_char (c : Char) : Bool :=
  (32 ≤ c.toNat && c.toNat != 127) || c.toNat == 9

/-- HeaderValue::from_str succeeds exactly when every char is valid. -/
def valid_header_value (s : String) : Bool := s.data.all valid_header_value_char

/-- Validity of one char of an HTTP header name under
HeaderName::from_bytes: ASCII letters and digits, and the chars with
codes 33, 35, 36, 37, 38, 39, 42, 43, 45, 46, 94, 95, 96, 124 and 126.
Uppercase letters are admitted and lowered by canonicalization. -/
def valid_header_name_char (c : Char) : Bool :=
  c.isAlphanum ||
    [33, 35, 36, 37, 38, 39, 42, 43, 45, 46, 94, 95, 96, 124, 126].contains c.toNat

/-- HeaderName::from_bytes succeeds on a nonempty all-valid name. -/
def valid_header_name (s : String) : Bool :=
  !s.data.isEmpty && s.data.all valid_header_name_char

/-- Canonical form of a header name: ASCII lowercase, char by char. -/
def headerNameCanon (s : String) : String := String.mk (s.data.map Char.toLower)

/-- HeaderMap.insert: replace the value of an existing entry carrying the
same canonical name, else append a new entry. -/
def headerInsert : List (String × String) → String → String → List (String × String)
  | [], k, v => [(k, v)]
  | kv :: rest, k, v =>
    if kv.1 == k then (k, v) :: rest else kv :: headerInsert rest k v

/-- ClientOptions (lib.rs lines 13-31). custom_headers is a HashMap with
distinct keys, modelled as an association list iterated in order. -/
structure ClientOptions where
  base_url : String
  api_key : Option String
  bearer_token : Option String
  timeout_secs : Option Nat
  max_retries : Option Nat
  user_agent : Option String
  custom_headers : Option (List (String × String))
  debug : Bool

/-- ClientOptions::new (lib.rs lines 34-45). -/
def ClientOptions.new (base_url : String) : ClientOptions :=
  { base_url := base_url
    api_key := none
    bearer_token := none
    timeout_secs := none
    max_retries := none
    user_agent := none
    custom_headers := none
    debug := false }

/-- Crate version constant (lib.rs line 8). -/
def VERSION : String := "0.1.0"

/-- Default timeout constant (lib.rs line 9). -/
def DEFAULT_TIMEOUT_SECS : Nat := 15

/-- Default retry ceiling constant (lib.rs line 10). -/
def DEFAULT_MAX_RETRIES : Nat := 3

/-- str::trim_end_matches applied to one slash pattern: remove every
trailing slash. -/
def trimTrailingSlashes (s : String) : String :=
  String.mk ((s.data.reverse.dropWhile (fun c => c == '/')).reverse)

/-- The custom-header loop of Client::new (lib.rs lines 170-177): each
name must pass HeaderName::from_bytes and each value
HeaderValue::from_str, a failure propagating as a construction error;
valid entries are inserted under the canonical lowercase name. -/
def insertCustomHeaders : List (String × String) → List (String × String) → Option (List (String × String))
  | hs, [] => some hs
  | hs, (k, v) :: rest =>
    if valid_header_name k && valid_header_value v then
      insertCustomHeaders (headerInsert hs (headerNameCanon k) v) rest
    else none

/-- Default-header construction of Client::new (lib.rs lines 141-177):
User-Agent (given or synthesized), the SDK language and version tags, at
most one auth header with bearer_token taking precedence over api_key,
then the custom headers; every from_str validation failure aborts the
construction. Names are stored in canonical lowercase form. -/
def baseHeaders (user_agent : String) : List (String × String) :=
  headerInsert (headerInsert (headerInsert [] "user-agent" user_agent)
    "x-sdk-language" "rust") "x-sdk-version" VERSION

/-- Auth and custom steps of the default-header construction, following
baseHeaders. -/
def defaultHeaders (o : ClientOptions) : Option (List (String × String)) :=
  let user_agent := o.user_agent.getD ("yourapi-rust-sdk/" ++ VERSION)
  if !valid_header_value user_agent then none
  else if !valid_header_value VERSION then none
  else
    match o.bearer_token with
    | some tok =>
      if !valid_header_value ("Bearer " ++ tok) then none
      else
        insertCustomHeaders
          (headerInsert (baseHeaders user_agent) "authorization" ("Bearer " ++ tok))
          (o.custom_headers.getD [])
    | none =>
      match o.api_key with
      | some key =>
        if !valid_header_value key then none
        else
          insertCustomHeaders (headerInsert (baseHeaders user_agent) "x-api-key" key)
            (o.custom_headers.getD [])
      | none => insertCustomHeaders (baseHeaders user_agent) (o.custom_headers.getD [])

/-- Client::new (lib.rs lines 136-190). The reqwest builder step always
succeeds on valid headers; the stored base URL is the input with its
trailing slashes stripped. -/
def Client.new (o : ClientOptions) : Option Client :=
  (defaultHeaders o).map fun headers =>
    { base_url := trimTrailingSlashes o.base_url
      default_headers := headers
      timeout_secs := o.timeout_secs.getD DEFAULT_TIMEOUT_SECS
      max_retries := o.max_retries.getD DEFAULT_MAX_RETRIES
      debug := o.debug }

/-- Encodability condition written from claim C10: the effective user
agent, the auth header value actually emitted, and every custom header
name and value must encode as valid HTTP header material. -/
def headersEncodable (o : ClientOptions) : Bool :=
  valid_header_value (o.user_agent.getD ("yourapi-rust-sdk/" ++ VERSION)) &&
  (match o.bearer_token with
   | some tok => valid_header_value ("Bearer " ++ tok)
   | none =>
     match o.api_key with
     | some key => valid_header_value key
     | none => true) &&
  (o.custom_headers.getD []).all fun kv => valid_header_name kv.1 && valid_header_value kv.2

/-- A run of n slashes. -/
def slashRun (n : Nat) : String := String.mk (List.replicate n '/')

/-- Options holding both credentials together with a custom header named
X-API-Key: a concrete configuration refuting claim C5 as stated. -/
def cexOptions : ClientOptions :=
  { base_url := "http://a"
    api_key := some "k"
    bearer_token := some "b"
    timeout_secs := none
    max_retries := none
    user_agent := none
    custom_headers := some [("X-API-Key", "z")]
    debug := false }

/-- Options holding both credentials and nothing else. -/
def wAuthOptions : ClientOptions :=
  { base_url := "u"
    api_key := some "k"
    bearer_token := some "t"
    timeout_secs := none
    max_retries := none
    user_agent := none
    custom_headers := none
    debug := false }

/-- The client Client::new builds from wAuthOptions. -/
def wAuthClient : Client :=
  { base_url := "u"
    default_headers :=
      [("user-agent", "yourapi-rust-sdk/0.1.0"),
       ("x-sdk-language", "rust"),
       ("x-sdk-version", "0.1.0"),
       ("authorization", "Bearer t")]
    timeout_secs := 15
    max_retries := 3
    debug := false }

/-- Outcome of one self.get call inside the paginator: a decoded JSON
body, an empty 204 success, or an APIError. -/
inductive GetOutcome where
  | ok (v : Json)
  | okEmpty
  | err (e : APIError)

/-- CursorPaginatedResponse (lib.rs lines 104-111), at item type Value. -/
structure CursorPaginatedResponse where
  items : List Json
  next_cursor : Option String
  has_more : Bool

/-- serde decode of CursorPaginatedResponse<Value> from a Value: items is
a required array, hasMore a required bool, nextCursor an optional field
that must be a string or null when present; unknown fields are
ignored. -/
def decodeCursorPage (v : Json) : Option CursorPaginatedResponse :=
  match v with
  | .obj fields =>
    match fields.lookup "items" with
    | some (.arr items) =>
      match fields.lookup "hasMore" with
      | some (.bool hm) =>
        match fields.lookup "nextCursor" with
        | some (.str s) => some { items := items, next_cursor := some s, has_more := hm }
        | some .null => some { items := items, next_cursor := none, has_more := hm }
        | none => some { items := items, next_cursor := none, has_more := hm }
        | some _ => none
      | _ => none
    | _ => none
  | _ => none

/-- Path of the next page request (lib.rs lines 392-400): the cursor is
appended with an ampersand when the path already contains a question
mark, else with a question mark; the first request (no cursor) uses the
path as given. String::contains on one char is modelled over the char
list. -/
def currentPath (path : String) (cursor : Option String) : String :=
  match cursor with
  | some c =>
    if path.data.contains '?' then path ++ "&cursor=" ++ c
    else path ++ "?cursor=" ++ c
  | none => path

/-- The PARSE_ERROR built when the paginated DTO decode fails (lib.rs
lines 404-411); the serde error text appended to the message is
abstracted to a fixed message. -/
def paginateParseError : APIError :=
  { message := "Failed to parse paginated response"
    status := none
    code := some "PARSE_ERROR"
    details := none
    request_id := none }

/-- The while loop of Client::paginate_cursor (lib.rs lines 383-422),
driven by the list of outcomes of the successive GET calls; the second
component records the path of every GET issued. The first component is
none when the supplied page list is exhausted with the loop still
running (the loop would request further pages). -/
def paginate_go (path : String) :
    List GetOutcome → Option String → List Json →
      Option (Except APIError (List Json)) × List String
  | [], _, _ => (none, [])
  | o :: rest, cursor, acc =>
    let cur := currentPath path cursor
    match o with
    | .okEmpty => (some (.ok acc), [cur])
    | .err e => (some (.error e), [cur])
    | .ok v =>
      match decodeCursorPage v with
      | none => (some (.error paginateParseError), [cur])
      | some page =>
        if page.has_more && page.next_cursor.isSome then
          let r := paginate_go path rest page.next_cursor (acc ++ page.items)
          (r.1, cur :: r.2)
        else (some (.ok (acc ++ page.items)), [cur])

/-- Client::paginate_cursor at item type Value. -/
def paginate_cursor (path : String) (pages : List GetOutcome) :
    Option (Except APIError (List Json)) × List String :=
  paginate_go path pages none []

/-- A page outcome on which the paginator continues: a decoded page with
has_more true and a next cursor present. -/
def pageContinues (o : GetOutcome) : Bool :=
  match o with
  | .ok v =>
    match decodeCursorPage v with
    | some page => page.has_more && page.next_cursor.isSome
    | none => false
  | _ => false

/-- Items contributed by a page outcome. -/
def pageItems (o : GetOutcome) : List Json :=
  match o with
  | .ok v =>
    match decodeCursorPage v with
    | some page => page.items
    | none => []
  | _ => []

/-- Result of the paginator when it stops at outcome o with acc items
accumulated: the accumulated items on a 204, the error on a failed GET
or an undecodable page, and the accumulated items extended by the final
page items otherwise. -/
def terminalOutcome (acc : List Json) (o : GetOutcome) : Except APIError (List Json) :=
  match o with
  | .okEmpty => .ok acc
  | .err e => .error e
  | .ok v =>
    match decodeCursorPage v with
    | none => .error paginateParseError
    | some page => .ok (acc ++ page.items)

/-- First server page: two items, cursor c1, more to come. -/
def wPage1 : GetOutcome :=
  .ok (.obj [("items", .arr [.num 1, .num 2]),
             ("nextCursor", .str "c1"),
             ("hasMore", .bool true)])

/-- Final server page: one item, null cursor, no more. -/
def wPage2 : GetOutcome :=
  .ok (.obj [("items", .arr [.num 3]),
             ("nextCursor", .null),
             ("hasMore", .bool false)])

/-- The retry loop performs at most `remaining` sends. -/
theorem do_request_go_sends_le (c : Client) (oracle : Nat → TransportOutcome) :
    ∀ remaining attempt, (do_request_go c oracle attempt remaining).sends ≤ remaining := by
  intro remaining
  induction remaining with
  | zero => intro attempt; simp [do_request_go]
  | succ n ih =>
    intro attempt
    simp only [do_request_go]
    cases oracle attempt with
    | response r =>
      dsimp only
      split
      · split
        · simp
        · split <;> simp
      · split
        · have := ih (attempt + 1)
          simp only
          omega
        · simp
    | failure e =>
      dsimp only
      split
      · have := ih (attempt + 1)
        simp only
        omega
      · simp

/-- A retry loop with at least one iteration of budget performs at least
one send. -/
theorem do_request_go_sends_pos (c : Client) (oracle : Nat → TransportOutcome)
    (attempt n : Nat) : 1 ≤ (do_request_go c oracle attempt (n + 1)).sends := by
  simp only [do_request_go]
  cases oracle attempt with
  | response r =>
    dsimp only
    split
    · split
      · simp
      · split <;> simp
    · split <;> simp
  | failure e =>
    dsimp only
    split <;> simp

/-- C1: for every configuration with max_retries = N and every sequence of
transport outcomes, a single do_request call performs at most N + 1
transport sends. -/
theorem attempt_budget (c : Client) (path : String) (oracle : Nat → TransportOutcome) :
    (do_request c path oracle).sends ≤ c.max_retries + 1 := by
  have h := do_request_go_sends_le c oracle (c.max_retries + 1) 0
  simpa [do_request] using h

/-- C2: for a response whose status is in {429, 500, 502, 503, 504}, when
the attempt index is strictly below max_retries, the loop sleeps for the
computed backoff and performs at least one further send; for a non-2xx
status outside that set it returns the parsed APIError immediately, with
exactly one send and no sleep. -/
theorem status_classification (c : Client) (oracle : Nat → TransportOutcome)
    (attempt remaining : Nat) (r : HttpResponse)
    (hr : oracle attempt = .response r) (hs : is_success r.status = false) :
    (r.status ∈ retryable_statuses → attempt < c.max_retries →
      (do_request_go c oracle attempt (remaining + 2)).sleeps =
        calculate_backoff attempt r.retryAfterSecs ::
          (do_request_go c oracle (attempt + 1) (remaining + 1)).sleeps ∧
      (do_request_go c oracle attempt (remaining + 2)).sends =
        (do_request_go c oracle (attempt + 1) (remaining + 1)).sends + 1 ∧
      1 ≤ (do_request_go c oracle (attempt + 1) (remaining + 1)).sends ∧
      (do_request_go c oracle attempt (remaining + 2)).result =
        (do_request_go c oracle (attempt + 1) (remaining + 1)).result) ∧
    (r.status ∉ retryable_statuses →
      do_request_go c oracle attempt (remaining + 1) =
        { result := .error (parse_error r)
          sends := 1
          sleeps := []
          fellThrough := false }) := by
  constructor
  · intro hm hlt
    have hpos := do_request_go_sends_pos c oracle (attempt + 1) remaining
    simp only [do_request_go, hr, hs, Bool.false_eq_true, if_false]
    rw [if_pos ⟨hm, hlt⟩]
    exact ⟨rfl, rfl, hpos, rfl⟩
  · intro hm
    simp only [do_request_go, hr, hs, Bool.false_eq_true, if_false]
    rw [if_neg (fun h => hm h.1)]

/-- Witness for the status-classification theorem at a concrete client,
oracle and attempt. -/
theorem status_classification_witness :
    (do_request_go wClient wOracle 0 2).sleeps =
      1 :: (do_request_go wClient wOracle 1 1).sleeps ∧
    (do_request_go wClient wOracle 0 2).sends =
      (do_request_go wClient wOracle 1 1).sends + 1 := by
  have h := (status_classification wClient wOracle 0 0 wResp500 rfl rfl).1
    (by decide) (by decide)
  refine ⟨?_, h.2.1⟩
  have h1 := h.1
  rwa [show calculate_backoff 0 wResp500.retryAfterSecs = 1 from rfl] at h1

/-- C3 counterexample: at attempt index 64 the u64 power wraps to 0, so
the backoff with no Retry-After hint is 0 seconds, not min(2^64, 8) = 8. -/
theorem backoff_claim_counterexample :
    calculate_backoff 64 none ≠ min (2 ^ 64) 8 := by decide

/-- C3 amended: a Retry-After hint of k seconds yields a backoff of
exactly k seconds with no cap, and for every attempt index a < 64 (below
u64 overflow of the power) the backoff with no hint is min(2^a, 8)
seconds. -/
theorem backoff_amended (a k : Nat) :
    calculate_backoff a (some k) = k ∧
    (a < 64 → calculate_backoff a none = min (2 ^ a) 8) := by
  constructor
  · rfl
  · intro h
    have hlt : 2 ^ a < 2 ^ 64 := Nat.pow_lt_pow_right (by omega) h
    have hmod : 2 ^ a % U64_MOD = 2 ^ a := Nat.mod_eq_of_lt hlt
    simp [calculate_backoff, hmod]

/-- Witness for the amended backoff theorem at attempt 3 and hint 7. -/
theorem backoff_amended_witness :
    calculate_backoff 3 (some 7) = 7 ∧ calculate_backoff 3 none = min (2 ^ 3) 8 :=
  ⟨(backoff_amended 3 7).1, (backoff_amended 3 7).2 (by decide)⟩

/-- C6: the APIError produced for a non-retried response coincides with
the reference extraction written from the spec, on every response. -/
theorem parse_error_matches_spec (r : HttpResponse) :
    parse_error r = specErrorExtraction r := by
  cases r with
  | mk status xid ra body =>
    cases body with
    | ok b =>
      simp only [parse_error, specErrorExtraction]
      cases jsonAsStr (jsonIndex b "message") <;>
        cases jsonAsStr (jsonIndex b "requestId") <;> rfl
    | error e => rfl

/-- With the loop invariant attempt + remaining = max_retries + 1 and a
positive budget, the retry loop never reaches the fall-through. -/
theorem do_request_go_no_fall (c : Client) (oracle : Nat → TransportOutcome) :
    ∀ remaining attempt, attempt + remaining = c.max_retries + 1 → 1 ≤ remaining →
      (do_request_go c oracle attempt remaining).fellThrough = false := by
  intro remaining
  induction remaining with
  | zero => intro attempt h1 h2; omega
  | succ n ih =>
    intro attempt h1 h2
    simp only [do_request_go]
    cases oracle attempt with
    | response r =>
      dsimp only
      split
      · split
        · rfl
        · split <;> rfl
      · split
        · rename_i hcond
          exact ih (attempt + 1) (by omega) (by omega)
        · rfl
    | failure e =>
      dsimp only
      split
      · rename_i hcond
        exact ih (attempt + 1) (by omega) (by omega)
      · rfl

/-- C7: the defensive fall-through branch after the retry loop is
unreachable: for every client, path and sequence of transport outcomes,
do_request returns from within the loop. -/
theorem retry_loop_no_fall_through (c : Client) (path : String)
    (oracle : Nat → TransportOutcome) :
    (do_request c path oracle).fellThrough = false := by
  have h := do_request_go_no_fall c oracle (c.max_retries + 1) 0 (by omega) (by omega)
  simpa [do_request] using h

/-- C9: do_request builds the request URL as the plain concatenation of
the stored base URL and the path, with no separator inserted; a path not
beginning with a slash is fused directly onto the base URL. -/
theorem request_url_is_plain_concat (c : Client) (path : String)
    (oracle : Nat → TransportOutcome) :
    (do_request c path oracle).url = c.base_url ++ path := rfl

/-- Inserting under a name different from n neither adds nor removes
entries named n. -/
theorem headerInsert_mem_iff (n v k vIns : String) (hne : n ≠ k) :
    ∀ hs : List (String × String), ((n, v) ∈ headerInsert hs k vIns ↔ (n, v) ∈ hs) := by
  intro hs
  induction hs with
  | nil =>
    simp only [headerInsert, List.mem_singleton, List.not_mem_nil, iff_false]
    intro heq
    exact hne (congrArg Prod.fst heq)
  | cons kv rest ih =>
    rcases kv with ⟨k2, v2⟩
    by_cases hk : (k2 == k) = true
    · have hk2 : k2 = k := by simpa using hk
      rw [show headerInsert ((k2, v2) :: rest) k vIns = (k, vIns) :: rest from by
        simp [headerInsert, hk]]
      constructor
      · intro hmem
        rcases List.mem_cons.mp hmem with heq | hmem2
        · exact absurd (congrArg Prod.fst heq) hne
        · exact List.mem_cons_of_mem _ hmem2
      · intro hmem
        rcases List.mem_cons.mp hmem with heq | hmem2
        · exact absurd (congrArg Prod.fst heq) (by rw [hk2]; exact hne)
        · exact List.mem_cons_of_mem _ hmem2
    · rw [show headerInsert ((k2, v2) :: rest) k vIns = (k2, v2) :: headerInsert rest k vIns from by
        simp [headerInsert, hk]]
      simp only [List.mem_cons, ih]

/-- The custom-header loop neither adds nor removes entries under a name
that no custom header canonicalizes to. -/
theorem insertCustomHeaders_mem_iff (n : String) :
    ∀ (custom hs hsOut : List (String × String)),
      insertCustomHeaders hs custom = some hsOut →
      (∀ kv ∈ custom, headerNameCanon kv.1 ≠ n) →
      ∀ v, ((n, v) ∈ hsOut ↔ (n, v) ∈ hs) := by
  intro custom
  induction custom with
  | nil =>
    intro hs hsOut h hkv v
    simp only [insertCustomHeaders, Option.some.injEq] at h
    rw [h]
  | cons kv rest ih =>
    intro hs hsOut h hkv v
    rcases kv with ⟨k2, v2⟩
    simp only [insertCustomHeaders] at h
    by_cases hval : (valid_header_name k2 && valid_header_value v2) = true
    · rw [if_pos hval] at h
      have h2 := ih _ _ h (fun kv2 hm => hkv kv2 (List.mem_cons_of_mem _ hm)) v
      rw [h2]
      exact headerInsert_mem_iff n v (headerNameCanon k2) v2
        (fun he => hkv (k2, v2) (List.mem_cons_self _ _) he.symm) _
    · rw [if_neg hval] at h
      exact absurd h (by simp)

/-- The custom-header loop succeeds exactly when every custom header name
and value is encodable. -/
theorem insertCustomHeaders_isSome :
    ∀ (custom hs : List (String × String)),
      (insertCustomHeaders hs custom).isSome =
        custom.all fun kv => valid_header_name kv.1 && valid_header_value kv.2 := by
  intro custom
  induction custom with
  | nil => intro hs; rfl
  | cons kv rest ih =>
    intro hs
    rcases kv with ⟨k2, v2⟩
    simp only [insertCustomHeaders, List.all_cons]
    by_cases hval : (valid_header_name k2 && valid_header_value v2) = true
    · rw [if_pos hval, ih, hval, Bool.true_and]
    · rw [if_neg hval]
      have hfalse : (valid_header_name k2 && valid_header_value v2) = false := by
        revert hval
        cases valid_header_name k2 && valid_header_value v2 <;> simp
      rw [hfalse, Bool.false_and]
      rfl

/-- Option.map preserves isSome. -/
theorem isSome_map_eq {α β : Type} (f : α → β) (x : Option α) :
    (x.map f).isSome = x.isSome := by cases x <;> rfl

/-- A leading run of slashes is absorbed by dropWhile on slashes. -/
theorem dropWhile_slash_replicate (n : Nat) (l : List Char) :
    (List.replicate n '/' ++ l).dropWhile (fun c => c == '/') =
      l.dropWhile (fun c => c == '/') := by
  induction n with
  | zero => rfl
  | succ m ih => simp [List.replicate_succ, List.dropWhile_cons, ih]

/-- Appending a run of slashes does not change the trimmed base URL. -/
theorem trim_append_slashRun (u : String) (n : Nat) :
    trimTrailingSlashes (u ++ slashRun n) = trimTrailingSlashes u := by
  rcases u with ⟨d⟩
  have h1 : (String.mk d ++ slashRun n) = String.mk (d ++ List.replicate n '/') := rfl
  rw [h1]
  unfold trimTrailingSlashes
  congr 1
  rw [List.reverse_append, List.reverse_replicate]
  exact congrArg List.reverse (dropWhile_slash_replicate n d.reverse)

/-- The head of a dropWhile-on-slash result is not a slash. -/
theorem dropWhile_slash_head (l : List Char) :
    ¬ (l.dropWhile (fun c => c == '/')).head? = some '/' := by
  induction l with
  | nil => simp [List.dropWhile]
  | cons a t ih =>
    rw [List.dropWhile_cons]
    by_cases ha : (a == '/') = true
    · rw [if_pos ha]; exact ih
    · rw [if_neg ha]
      simp only [List.head?_cons]
      intro h
      apply ha
      have h2 : a = '/' := by injection h
      simp [h2]

/-- A trimmed base URL never ends with a slash. -/
theorem trim_getLast (s : String) :
    (trimTrailingSlashes s).data.getLast? ≠ some '/' := by
  unfold trimTrailingSlashes
  rw [List.getLast?_reverse]
  exact dropWhile_slash_head _

/-- C8: the base URL stored in a constructed Client never ends with a
slash, and appending any run of trailing slashes to the configured base
URL yields the identical client, hence identical outgoing request URLs
for every path. -/
theorem base_url_normalization (o : ClientOptions) (n : Nat) :
    ((Client.new o).all fun cl => decide (cl.base_url.data.getLast? ≠ some '/')) = true ∧
    Client.new { o with base_url := o.base_url ++ slashRun n } = Client.new o := by
  constructor
  · unfold Client.new
    cases defaultHeaders o with
    | none => rfl
    | some hs =>
      simp only [Option.map_some', Option.all]
      exact decide_eq_true (trim_getLast o.base_url)
  · have hd : defaultHeaders { o with base_url := o.base_url ++ slashRun n } =
        defaultHeaders o := rfl
    unfold Client.new
    rw [hd]
    cases defaultHeaders o with
    | none => rfl
    | some hs =>
      simp only [Option.map_some', Option.some.injEq]
      have ht : trimTrailingSlashes (o.base_url ++ slashRun n) =
          trimTrailingSlashes o.base_url := trim_append_slashRun o.base_url n
      simp [ht]

/-- C10: Client::new performs no validation of base_url (changing it never
changes whether construction succeeds), a default configuration succeeds
for every base_url, and construction succeeds exactly when the effective
user agent, the emitted auth header value, and every custom header name
and value are encodable as HTTP header material. -/
theorem client_new_validation (o : ClientOptions) (b : String) :
    (Client.new { o with base_url := b }).isSome = (Client.new o).isSome ∧
    (Client.new (ClientOptions.new b)).isSome = true ∧
    (Client.new o).isSome = headersEncodable o := by
  refine ⟨?_, rfl, ?_⟩
  · unfold Client.new
    rw [isSome_map_eq, isSome_map_eq]
    rcases o with ⟨bu, ak, bt, ts, mr, ua, ch, dbg⟩
    rfl
  unfold Client.new
  rw [isSome_map_eq]
  unfold defaultHeaders headersEncodable
  cases hbt : o.bearer_token with
  | some tok =>
    cases hv : valid_header_value (o.user_agent.getD ("yourapi-rust-sdk/" ++ VERSION)) <;>
      cases hb2 : valid_header_value ("Bearer " ++ tok) <;>
        simp +decide [hv, hb2, insertCustomHeaders_isSome]
  | none =>
    cases hak : o.api_key with
    | some key =>
      cases hv : valid_header_value (o.user_agent.getD ("yourapi-rust-sdk/" ++ VERSION)) <;>
        cases hk : valid_header_value key <;>
          simp +decide [hv, hk, insertCustomHeaders_isSome]
    | none =>
      cases hv : valid_header_value (o.user_agent.getD ("yourapi-rust-sdk/" ++ VERSION)) <;>
        simp +decide [hv, insertCustomHeaders_isSome]

/-- C5 counterexample: a configuration with both credentials set whose
custom headers carry an X-API-Key entry produces a client whose default
header set does contain X-API-Key, refuting the claim as universally
stated. -/
theorem auth_precedence_counterexample :
    cexOptions.bearer_token.isSome = true ∧
    cexOptions.api_key.isSome = true ∧
    ((Client.new cexOptions).map fun cl => cl.default_headers) =
      some [("user-agent", "yourapi-rust-sdk/0.1.0"),
            ("x-sdk-language", "rust"),
            ("x-sdk-version", "0.1.0"),
            ("authorization", "Bearer b"),
            ("x-api-key", "z")] := by
  refine ⟨rfl, rfl, ?_⟩
  decide

/-- C5 amended: if both bearer_token and api_key are set and no custom
header has a name that canonicalizes to authorization or x-api-key, the
constructed default header set carries Authorization with the bearer
value and no X-API-Key entry. -/
theorem auth_precedence_amended (o : ClientOptions) (tok key : String)
    (hb : o.bearer_token = some tok) (ha : o.api_key = some key)
    (hc : ∀ kv ∈ o.custom_headers.getD [],
      headerNameCanon kv.1 ≠ "authorization" ∧ headerNameCanon kv.1 ≠ "x-api-key") :
    ∀ cl, Client.new o = some cl →
      ("authorization", "Bearer " ++ tok) ∈ cl.default_headers ∧
      ∀ v, ("x-api-key", v) ∉ cl.default_headers := by
  intro cl hcl
  unfold Client.new at hcl
  rcases Option.map_eq_some'.mp hcl with ⟨hs, hdh, hclEq⟩
  unfold defaultHeaders at hdh
  rw [hb] at hdh
  by_cases hua : (!valid_header_value (o.user_agent.getD ("yourapi-rust-sdk/" ++ VERSION))) = true
  · rw [if_pos hua] at hdh
    exact absurd hdh (by simp)
  · rw [if_neg hua, if_neg (by decide : ¬((!valid_header_value VERSION) = true))] at hdh
    have hdh1 : (if (!valid_header_value ("Bearer " ++ tok)) = true then none
        else insertCustomHeaders
          (headerInsert (baseHeaders (o.user_agent.getD ("yourapi-rust-sdk/" ++ VERSION)))
            "authorization" ("Bearer " ++ tok))
          (o.custom_headers.getD [])) = some hs := hdh
    by_cases hbv : (!valid_header_value ("Bearer " ++ tok)) = true
    · rw [if_pos hbv] at hdh1
      exact absurd hdh1 (by simp)
    · rw [if_neg hbv] at hdh1
      have hs0 : headerInsert
            (baseHeaders (o.user_agent.getD ("yourapi-rust-sdk/" ++ VERSION)))
            "authorization" ("Bearer " ++ tok) =
          [("user-agent", o.user_agent.getD ("yourapi-rust-sdk/" ++ VERSION)),
           ("x-sdk-language", "rust"),
           ("x-sdk-version", VERSION),
           ("authorization", "Bearer " ++ tok)] := rfl
      rw [hs0] at hdh1
      have hdh := hdh1
      have hdefs : cl.default_headers = hs := by rw [← hclEq]
      constructor
      · rw [hdefs]
        rw [insertCustomHeaders_mem_iff "authorization" _ _ _ hdh
          (fun kv hm => (hc kv hm).1) ("Bearer " ++ tok)]
        simp
      · intro v hvmem
        rw [hdefs] at hvmem
        rw [insertCustomHeaders_mem_iff "x-api-key" _ _ _ hdh
          (fun kv hm => (hc kv hm).2) v] at hvmem
        rcases List.mem_cons.mp hvmem with h1 | hvmem
        · simp at h1
        rcases List.mem_cons.mp hvmem with h1 | hvmem
        · simp at h1
        rcases List.mem_cons.mp hvmem with h1 | hvmem
        · simp at h1
        rcases List.mem_cons.mp hvmem with h1 | hvmem
        · simp at h1
        · exact List.not_mem_nil _ hvmem

/-- Witness for the amended auth-precedence theorem at a configuration
holding both credentials and no custom headers. -/
theorem auth_precedence_amended_witness :
    ("authorization", "Bearer " ++ "t") ∈ wAuthClient.default_headers ∧
    ("x-api-key", "k") ∉ wAuthClient.default_headers := by
  have h := auth_precedence_amended wAuthOptions "t" "k" rfl rfl
    (by intro kv hm; simp [wAuthOptions] at hm) wAuthClient rfl
  exact ⟨h.1, h.2 "k"⟩

/-- On a run of pages the paginator continues on, the loop consumes the
whole supplied list and is still running. -/
theorem paginate_go_continues (path : String) :
    ∀ (pages : List GetOutcome) (cursor : Option String) (acc : List Json),
      (∀ o ∈ pages, pageContinues o = true) →
      (paginate_go path pages cursor acc).1 = none := by
  intro pages
  induction pages with
  | nil => intro cursor acc h; rfl
  | cons o rest ih =>
    intro cursor acc h
    have ho := h o (List.mem_cons_self _ _)
    cases o with
    | okEmpty => simp [pageContinues] at ho
    | err e => simp [pageContinues] at ho
    | ok v =>
      simp only [paginate_go]
      cases hd : decodeCursorPage v with
      | none => simp [pageContinues, hd] at ho
      | some page =>
        dsimp only
        have hcont : (page.has_more && page.next_cursor.isSome) = true := by
          simpa [pageContinues, hd] using ho
        rw [if_pos hcont]
        exact ih page.next_cursor (acc ++ page.items)
          (fun o2 hm => h o2 (List.mem_cons_of_mem _ hm))

/-- After a run of continuing pages followed by a non-continuing page,
the paginator stops exactly at that page, having issued one GET per page
visited and accumulated the pages in order. -/
theorem paginate_go_terminal (path : String) (last : GetOutcome)
    (rest : List GetOutcome) (hlast : pageContinues last = false) :
    ∀ (pre : List GetOutcome) (cursor : Option String) (acc : List Json),
      (∀ o ∈ pre, pageContinues o = true) →
      (paginate_go path (pre ++ last :: rest) cursor acc).1 =
        some (terminalOutcome (acc ++ (pre.map pageItems).flatten) last) ∧
      (paginate_go path (pre ++ last :: rest) cursor acc).2.length = pre.length + 1 := by
  intro pre
  induction pre with
  | nil =>
    intro cursor acc h
    simp only [List.nil_append, List.map_nil, List.flatten_nil, List.append_nil]
    cases last with
    | okEmpty => exact ⟨rfl, rfl⟩
    | err e => exact ⟨rfl, rfl⟩
    | ok v =>
      simp only [paginate_go, terminalOutcome]
      cases hd : decodeCursorPage v with
      | none => exact ⟨rfl, rfl⟩
      | some page =>
        dsimp only
        have hcont : (page.has_more && page.next_cursor.isSome) = false := by
          simpa [pageContinues, hd] using hlast
        rw [if_neg (by simp [hcont])]
        exact ⟨rfl, rfl⟩
  | cons p pre2 ih =>
    intro cursor acc h
    have hp := h p (List.mem_cons_self _ _)
    cases p with
    | okEmpty => simp [pageContinues] at hp
    | err e => simp [pageContinues] at hp
    | ok v =>
      simp only [List.cons_append, paginate_go]
      cases hd : decodeCursorPage v with
      | none => simp [pageContinues, hd] at hp
      | some page =>
        dsimp only
        have hcont : (page.has_more && page.next_cursor.isSome) = true := by
          simpa [pageContinues, hd] using hp
        rw [if_pos hcont]
        have ih2 := ih page.next_cursor (acc ++ page.items)
          (fun o2 hm => h o2 (List.mem_cons_of_mem _ hm))
        refine ⟨?_, ?_⟩
        · show (paginate_go path (pre2 ++ last :: rest) page.next_cursor
              (acc ++ page.items)).1 =
            some (terminalOutcome
              (acc ++ (List.map pageItems (GetOutcome.ok v :: pre2)).flatten) last)
          rw [ih2.1]
          simp [pageItems, hd, List.append_assoc]
        · show (currentPath path cursor ::
              (paginate_go path (pre2 ++ last :: rest) page.next_cursor
                (acc ++ page.items)).2).length =
            (GetOutcome.ok v :: pre2).length + 1
          simp [ih2.2]

/-- C4: after any run of pages the paginator continues on, followed by a
first page carrying hasMore false or a null nextCursor (or a 204, or an
error, or an undecodable body), paginate_cursor stops at exactly that
page, issues exactly one GET per page visited, and on success returns
the in-order concatenation of the items of every page visited; and on a
list of pages it always continues on, the loop consumes every page and
is still running. -/
theorem paginate_cursor_correct (path : String) (pre rest : List GetOutcome)
    (last : GetOutcome) (hpre : ∀ o ∈ pre, pageContinues o = true)
    (hlast : pageContinues last = false) :
    (paginate_cursor path (pre ++ last :: rest)).1 =
      some (terminalOutcome (pre.map pageItems).flatten last) ∧
    (paginate_cursor path (pre ++ last :: rest)).2.length = pre.length + 1 ∧
    ∀ pages : List GetOutcome, (∀ o ∈ pages, pageContinues o = true) →
      (paginate_cursor path pages).1 = none := by
  have h := paginate_go_terminal path last rest hlast pre none [] hpre
  refine ⟨?_, h.2, ?_⟩
  · have h1 := h.1
    rwa [List.nil_append] at h1
  · intro pages hp
    exact paginate_go_continues path pages none [] hp

/-- Witness for the pagination theorem on the two concrete pages of
scenario S6: items [1,2] then [3], stopping at the second page. -/
theorem paginate_cursor_correct_witness :
    (paginate_cursor "/items" [wPage1, wPage2]).1 =
      some (.ok [.num 1, .num 2, .num 3]) ∧
    (paginate_cursor "/items" [wPage1, wPage2]).2.length = 2 := by
  have h := paginate_cursor_correct "/items" [wPage1] [] wPage2
    (by decide) (by decide)
  refine ⟨?_, h.2.1⟩
  have h1 := h.1
  rwa [show some (terminalOutcome ([wPage1].map pageItems).flatten wPage2) =
    some (Except.ok [Json.num 1, Json.num 2, Json.num 3]) from rfl] at h1
